import Mathlib

/-!
Verification of the voxelize server core: a shallow embedding of the
vector utilities (`src/server/utils/vec.rs`), the example world's chunk
stage and mesher (`src/examples/server/src/world.rs`), and — where the
crate's own sources are not available — spec-modelled definitions of the
`Chunk` data entity and the `ChunkManager` request path.

Conventions of the embedding:
* Rust machine integers (`i32`, `u32`, `usize`) are modelled as `Int`/`Nat`;
  no arithmetic here approaches overflow.
* Fallible operations (Rust `panic!`, out-of-bounds indexing) are modelled
  with `Option`: `none` is the loud failure.
* Rust tuple-struct fields `.0`, `.1`, `.2` are named `x`, `y`, `z`.
-/

namespace Voxelize

/-- Embedding of `Vec2<T>` from `src/server/utils/vec.rs`: a tuple struct of
two components, deriving `PartialEq`/`Eq`/`Hash` in the source. -/
structure Vec2 (α : Type) where
  x : α
  y : α
deriving DecidableEq

/-- Embedding of `Vec3<T>` from `src/server/utils/vec.rs`: a tuple struct of
three components. -/
structure Vec3 (α : Type) where
  x : α
  y : α
  z : α
deriving DecidableEq

/-- Embedding of `Vec3::add`: componentwise addition. -/
def Vec3.add {α : Type} [Add α] (a b : Vec3 α) : Vec3 α :=
  Vec3.mk (a.x + b.x) (a.y + b.y) (a.z + b.z)

/-- Embedding of `Vec3::scale`: multiply every component by the scalar. -/
def Vec3.scale {α : Type} [Mul α] (v : Vec3 α) (s : α) : Vec3 α :=
  Vec3.mk (v.x * s) (v.y * s) (v.z * s)

/-- Embedding of `Vec3::scale_and_add`: `self.i + other.i * scale` per
component, exactly as written in the source. -/
def Vec3.scale_and_add {α : Type} [Add α] [Mul α] (a b : Vec3 α) (s : α) : Vec3 α :=
  Vec3.mk (a.x + b.x * s) (a.y + b.y * s) (a.z + b.z * s)

/-- Embedding of `Index<usize> for Vec3`: components `0`, `1`, `2` are
returned; any other index panics (`none` here). -/
def Vec3.index {α : Type} (v : Vec3 α) (i : Nat) : Option α :=
  if i = 0 then some v.x
  else if i = 1 then some v.y
  else if i = 2 then some v.z
  else none

/-- Embedding of `IndexMut<usize> for Vec3`, viewed as the write it enables:
writing `a` through the returned mutable reference replaces exactly that
component; any index other than `0`, `1`, `2` panics (`none` here). -/
def Vec3.index_set {α : Type} (v : Vec3 α) (i : Nat) (a : α) : Option (Vec3 α) :=
  if i = 0 then some (Vec3.mk a v.y v.z)
  else if i = 1 then some (Vec3.mk v.x a v.z)
  else if i = 2 then some (Vec3.mk v.x v.y a)
  else none

/-- Embedding of `From<Vec<T>> for Vec3`: reads `vec[0]`, `vec[1]`, `vec[2]`
(each of which panics when missing, hence `Option`) and builds the triple. -/
def Vec3.from_vec {α : Type} (vec : List α) : Option (Vec3 α) :=
  match vec.get? 0, vec.get? 1, vec.get? 2 with
  | some x, some y, some z => some (Vec3.mk x y z)
  | _, _, _ => none

/-- Embedding of `Vec3::<f32>::normalize`. The component type is kept
abstract (an ordered arithmetic type standing in for `f32`, with `sqrt`
passed explicitly), which preserves the source's control flow exactly:
compute the squared length, and only under the guard `len > 0.0` shadow
`len` by `1.0 / len.sqrt()` and scale the components by it; otherwise
return a copy of `self`. -/
def Vec3.normalize {α : Type} [Zero α] [One α] [Add α] [Mul α] [Div α]
    [LT α] [instDec : ∀ a b : α, Decidable (a < b)] (sqrt : α → α) (v : Vec3 α) : Vec3 α :=
  let len := v.x * v.x + v.y * v.y + v.z * v.z
  if len > 0 then
    let l := 1 / sqrt len
    Vec3.mk (v.x * l) (v.y * l) (v.z * l)
  else v

/-- Modelled hash seed combination: the derived `Hash` impl of `Vec2` feeds
both fields, in order, into the hasher; the hasher state transition is
modelled as a deterministic mixing function. -/
def hashCombine (seed h : Nat) : Nat :=
  (seed * 1099511628211 + h) % (2 ^ 64)

/-- Modelled hash of a single `i32` component. -/
def intHash (i : Int) : Nat :=
  2 * i.natAbs + (if i < 0 then 1 else 0)

/-- Embedding of the derived `Hash` for `Vec2<i32>`: hash field `0`, then
field `1`, into the hasher. -/
def Vec2.hash (v : Vec2 Int) : Nat :=
  hashCombine (hashCombine 0 (intHash v.x)) (intHash v.y)

/-- Modelled from the spec: `ChunkOptions` is the immutable configuration —
chunk horizontal size, maximum world height, number of vertical
sub-divisions, and a margin size (the example world builds
`ChunkOptions::new(16, 256, 4, 16)`). -/
structure ChunkOptions where
  chunk_size : Nat
  max_height : Nat
  sub_chunks : Nat
  margin : Nat
deriving DecidableEq

/-- Modelled from the spec: a `Chunk` owns a dense voxel grid (one block id
per cell, here a total function on local grid indices `(lx, ly, lz)`), its
coordinate, and the shared options. The `Chunk` struct itself lives in the
voxelize crate, outside the available sources. -/
structure Chunk where
  coords : Vec2 Int
  options : ChunkOptions
  voxels : Nat → Nat → Nat → Nat

/-- Modelled from the spec: the chunk's minimum world-space corner is
derived from coordinate × size; the vertical component is `0` since chunks
span the full world height starting at the bottom. -/
def Chunk.min (c : Chunk) : Vec3 Int :=
  Vec3.mk (c.coords.x * (c.options.chunk_size : Int)) 0
    (c.coords.y * (c.options.chunk_size : Int))

/-- Modelled from the spec: block write by absolute world coordinate,
internally translated to local grid indices; an out-of-range write is a
programming error that fails loudly (`none`), never silently clamps. -/
def Chunk.set_block_id (c : Chunk) (vx vy vz : Int) (id : Nat) : Option Chunk :=
  let lx := vx - c.min.x
  let ly := vy - c.min.y
  let lz := vz - c.min.z
  if 0 ≤ lx ∧ lx < (c.options.chunk_size : Int)
      ∧ 0 ≤ ly ∧ ly < (c.options.max_height : Int)
      ∧ 0 ≤ lz ∧ lz < (c.options.chunk_size : Int) then
    some { c with voxels := fun a b d =>
      if a = lx.toNat ∧ b = ly.toNat ∧ d = lz.toNat then id else c.voxels a b d }
  else none

/-- Modelled from the spec: block read by absolute world coordinate,
internally translated to local grid indices; out-of-range reads fail
loudly (`none`). -/
def Chunk.get_block_id (c : Chunk) (vx vy vz : Int) : Option Nat :=
  let lx := vx - c.min.x
  let ly := vy - c.min.y
  let lz := vz - c.min.z
  if 0 ≤ lx ∧ lx < (c.options.chunk_size : Int)
      ∧ 0 ≤ ly ∧ ly < (c.options.max_height : Int)
      ∧ 0 ≤ lz ∧ lz < (c.options.chunk_size : Int) then
    some (c.voxels lx.toNat ly.toNat lz.toNat)
  else none

/-- Embedding of `TestStage::process` from `src/examples/server/src/world.rs`:
destructure `chunk.min` into `(x, _, z)`, then for `vx` in
`x .. x + chunk_size` and `vz` in `z .. z + chunk_size` call
`chunk.set_block_id(vx, 0, vz, 1)`, threading the chunk through. -/
def TestStage.process (c : Chunk) : Option Chunk :=
  let x := c.min.x
  let z := c.min.z
  let chunk_size := c.options.chunk_size
  (List.range chunk_size).foldlM
    (fun ch (i : Nat) =>
      (List.range chunk_size).foldlM
        (fun ch2 (j : Nat) => ch2.set_block_id (x + (i : Int)) 0 (z + (j : Int)) 1) ch)
    c

/-- Modelled from the spec: chunk lifecycle status
(`Requested → Generating → Meshing → Ready ⇄ Dirty`). -/
inductive ChunkStatus
  | Requested
  | Generating
  | Meshing
  | Ready
  | Dirty
deriving DecidableEq

/-- Modelled from the spec: the chunk manager state relevant to request
coalescing — the chunk table keyed by coordinate (holding each chunk's
status) and the scheduler queue of submitted job coordinates. The
`ChunkManager` type itself lives in the voxelize crate, outside the
available sources. -/
structure ChunkManager where
  chunks : List (Vec2 Int × ChunkStatus)
  queue : List (Vec2 Int)
deriving DecidableEq

/-- Status lookup in the chunk table by coordinate. -/
def lookupStatus (table : List (Vec2 Int × ChunkStatus)) (c : Vec2 Int) :
    Option ChunkStatus :=
  (table.find? (fun p => p.1 == c)).map Prod.snd

/-- Modelled from the spec: `ChunkManager::request(coord)` — if no chunk
exists for the coordinate, create one in `Requested` status and submit a
job; if one exists (whether `Ready` or still in flight) return without
submitting anything: the duplicate is coalesced. -/
def ChunkManager.request (m : ChunkManager) (c : Vec2 Int) : ChunkManager :=
  match lookupStatus m.chunks c with
  | none =>
    { chunks := (c, ChunkStatus.Requested) :: m.chunks, queue := m.queue ++ [c] }
  | some _ => m

/-- Modelled from the voxelize-protocol crate at its interface boundary:
the example mesher builds `GeometryData::new(block_id).build()`, so only
the carried block id matters here. -/
structure GeometryData where
  block_id : Nat
deriving DecidableEq

/-- Embedding of `BlockMesher::is_applicable` from
`src/examples/server/src/world.rs`: `block_id != 0`. -/
def BlockMesher.is_applicable (block_id : Nat) : Bool :=
  block_id != 0

/-- Embedding of `BlockMesher::mesh` from `src/examples/server/src/world.rs`:
read the block id at the voxel through the block access (the chunk here)
and return one geometry fragment carrying it. -/
def BlockMesher.mesh (c : Chunk) (voxel : Vec3 Int) : Option (List GeometryData) :=
  (c.get_block_id voxel.x voxel.y voxel.z).map (fun b => [GeometryData.mk b])

/-- Modelled from the spec: mesher dispatch — for a candidate voxel,
determine the applicable meshing strategy by block id via
`is_applicable(block_id)`; a voxel whose block id has no applicable mesher
contributes zero geometry fragments. The example registry holds the single
`BlockMesher`. -/
def mesher_dispatch (c : Chunk) (vx vy vz : Int) : Option (List GeometryData) :=
  match c.get_block_id vx vy vz with
  | none => none
  | some b =>
    if BlockMesher.is_applicable b then BlockMesher.mesh c (Vec3.mk vx vy vz)
    else some []

/-- Concrete chunk used by witnesses: coordinate `(0,0)`, a 2×3×2 grid of
air. -/
def sampleChunk : Chunk :=
  { coords := Vec2.mk 0 0
    options := { chunk_size := 2, max_height := 3, sub_chunks := 1, margin := 1 }
    voxels := fun _ _ _ => 0 }

/-- Concrete chunk with the same grid and options as `sampleChunk` but a
different coordinate. -/
def sampleChunkShifted : Chunk :=
  { coords := Vec2.mk 5 (-7)
    options := sampleChunk.options
    voxels := sampleChunk.voxels }

/-- Concrete empty manager used by witnesses. -/
def emptyManager : ChunkManager :=
  { chunks := [], queue := [] }

theorem Chunk.min_congr {c1 c2 : Chunk} (hc : c1.coords = c2.coords)
    (ho : c1.options = c2.options) : c1.min = c2.min := by
  simp [Chunk.min, hc, ho]

theorem set_block_id_in_bounds (c ch : Chunk) (i j : Nat)
    (hc : ch.coords = c.coords) (ho : ch.options = c.options)
    (hi : i < c.options.chunk_size) (hj : j < c.options.chunk_size)
    (hh : 0 < c.options.max_height) :
    ch.set_block_id (c.min.x + (i : Int)) 0 (c.min.z + (j : Int)) 1
      = some { ch with voxels := fun a b d =>
          if a = i ∧ b = 0 ∧ d = j then 1 else ch.voxels a b d } := by
  have hmin : ch.min = c.min := Chunk.min_congr hc ho
  have hy : c.min.y = 0 := rfl
  simp only [Chunk.set_block_id, hmin, ho, hy, add_sub_cancel_left, sub_zero]
  rw [if_pos (by omega)]
  simp

theorem inner_fold_spec (c : Chunk) (i : Nat) (hi : i < c.options.chunk_size)
    (hh : 0 < c.options.max_height) :
    ∀ (js : List Nat) (ch : Chunk), ch.coords = c.coords → ch.options = c.options →
    (∀ j ∈ js, j < c.options.chunk_size) →
    js.foldlM
        (fun ch2 j => ch2.set_block_id (c.min.x + (i : Int)) 0 (c.min.z + (j : Int)) 1) ch
      = some { ch with voxels := fun a b d =>
          if a = i ∧ b = 0 ∧ d ∈ js then 1 else ch.voxels a b d } := by
  intro js
  induction js with
  | nil =>
    intro ch hc ho hjs
    simp [List.foldlM_nil]
  | cons j js ih =>
    intro ch hc ho hjs
    rw [List.foldlM_cons,
      set_block_id_in_bounds c ch i j hc ho hi (hjs j (by simp)) hh]
    have hch1c : ({ ch with voxels := fun a b d =>
        if a = i ∧ b = 0 ∧ d = j then 1 else ch.voxels a b d } : Chunk).coords
        = c.coords := hc
    have hch1o : ({ ch with voxels := fun a b d =>
        if a = i ∧ b = 0 ∧ d = j then 1 else ch.voxels a b d } : Chunk).options
        = c.options := ho
    simp only [Option.bind_eq_bind, Option.some_bind]
    rw [ih _ hch1c hch1o (fun x hx => hjs x (by simp [hx]))]
    refine congrArg some ?_
    refine congrArg (Chunk.mk ch.coords ch.options) ?_
    funext a b d
    by_cases ha : a = i <;> by_cases hb : b = 0 <;>
      by_cases hd1 : d = j <;> by_cases hd2 : d ∈ js <;>
      simp [ha, hb, hd1, hd2, List.mem_cons]

theorem outer_fold_spec (c : Chunk) (hh : 0 < c.options.max_height) :
    ∀ (is : List Nat) (ch : Chunk), ch.coords = c.coords → ch.options = c.options →
    (∀ i ∈ is, i < c.options.chunk_size) →
    is.foldlM
        (fun ch i => (List.range c.options.chunk_size).foldlM
          (fun ch2 j => ch2.set_block_id (c.min.x + (i : Int)) 0 (c.min.z + (j : Int)) 1) ch)
        ch
      = some { ch with voxels := fun a b d =>
          if a ∈ is ∧ b = 0 ∧ d < c.options.chunk_size then 1 else ch.voxels a b d } := by
  intro is
  induction is with
  | nil =>
    intro ch hc ho his
    simp [List.foldlM_nil]
  | cons i is ih =>
    intro ch hc ho his
    rw [List.foldlM_cons,
      inner_fold_spec c i (his i (by simp)) hh (List.range c.options.chunk_size) ch hc ho
        (fun x hx => List.mem_range.mp hx)]
    have hch1c : ({ ch with voxels := fun a b d =>
        (if a = i ∧ b = 0 ∧ d ∈ List.range c.options.chunk_size then 1
          else ch.voxels a b d) } : Chunk).coords = c.coords := hc
    have hch1o : ({ ch with voxels := fun a b d =>
        (if a = i ∧ b = 0 ∧ d ∈ List.range c.options.chunk_size then 1
          else ch.voxels a b d) } : Chunk).options = c.options := ho
    simp only [Option.bind_eq_bind, Option.some_bind]
    rw [ih _ hch1c hch1o (fun x hx => his x (by simp [hx]))]
    refine congrArg some ?_
    refine congrArg (Chunk.mk ch.coords ch.options) ?_
    funext a b d
    by_cases ha1 : a = i <;> by_cases ha2 : a ∈ is <;> by_cases hb : b = 0 <;>
      by_cases hd : d < c.options.chunk_size <;>
      simp [ha1, ha2, hb, hd, List.mem_cons, List.mem_range]

/-- Closed form of `TestStage::process` on any chunk with positive world
height: it succeeds, and the resulting grid is the original one overwritten
with block id `1` on the whole local plane `ly = 0`. -/
theorem process_spec (c : Chunk) (hh : 0 < c.options.max_height) :
    TestStage.process c = some { c with voxels := fun a b d =>
      (if a < c.options.chunk_size ∧ b = 0 ∧ d < c.options.chunk_size then 1
        else c.voxels a b d) } := by
  have h := outer_fold_spec c hh (List.range c.options.chunk_size) c rfl rfl
    (fun x hx => List.mem_range.mp hx)
  rw [TestStage.process, h]
  refine congrArg some ?_
  refine congrArg (Chunk.mk c.coords c.options) ?_
  funext a b d
  simp [List.mem_range]

theorem process_height_zero (c : Chunk) (hh : c.options.max_height = 0)
    (hs : 0 < c.options.chunk_size) :
    TestStage.process c = none := by
  obtain ⟨m, hm⟩ : ∃ m, c.options.chunk_size = m + 1 :=
    ⟨c.options.chunk_size - 1, by omega⟩
  have hfail : c.set_block_id (c.min.x + ((0 : Nat) : Int)) 0
      (c.min.z + ((0 : Nat) : Int)) 1 = none := by
    have hy : c.min.y = 0 := rfl
    simp only [Chunk.set_block_id, hy, add_sub_cancel_left, sub_zero]
    rw [if_neg (by omega)]
  rw [TestStage.process, hm, List.range_succ_eq_map, List.foldlM_cons,
    List.foldlM_cons, hfail]
  rfl

/-- C4: out-of-range access on `Vec3` fails loudly rather than clamping:
for every index `i ≥ 3` both the read (`Index`) and the write (`IndexMut`)
panic, while indices `0`, `1`, `2` return or replace exactly the first,
second, third component. -/
theorem vec3_index_spec {α : Type} (v : Vec3 α) (a : α) (i : Nat) (h : 3 ≤ i) :
    v.index i = none ∧ v.index_set i a = none
    ∧ v.index 0 = some v.x ∧ v.index 1 = some v.y ∧ v.index 2 = some v.z
    ∧ v.index_set 0 a = some (Vec3.mk a v.y v.z)
    ∧ v.index_set 1 a = some (Vec3.mk v.x a v.z)
    ∧ v.index_set 2 a = some (Vec3.mk v.x v.y a) := by
  have h0 : i ≠ 0 := by omega
  have h1 : i ≠ 1 := by omega
  have h2 : i ≠ 2 := by omega
  refine ⟨?_, ?_, rfl, rfl, rfl, rfl, rfl, rfl⟩ <;>
    simp [Vec3.index, Vec3.index_set, h0, h1, h2]

/-- Witness for C4 at a concrete vector and index. -/
theorem vec3_index_spec_witness :
    (Vec3.mk 10 20 30).index 3 = none
    ∧ (Vec3.mk 10 20 30).index_set 3 7 = none
    ∧ (Vec3.mk 10 20 30).index 0 = some 10
    ∧ (Vec3.mk 10 20 30).index 1 = some 20
    ∧ (Vec3.mk 10 20 30).index 2 = some 30
    ∧ (Vec3.mk 10 20 30).index_set 0 7 = some (Vec3.mk 7 20 30)
    ∧ (Vec3.mk 10 20 30).index_set 1 7 = some (Vec3.mk 10 7 30)
    ∧ (Vec3.mk 10 20 30).index_set 2 7 = some (Vec3.mk 10 20 7) :=
  vec3_index_spec (Vec3.mk 10 20 30) 7 3 (by decide)

/-- C6: two chunk coordinates are equal exactly when both components match,
and the (derived) hash respects this equality. -/
theorem vec2_eq_iff_and_hash (a b : Vec2 Int) :
    (a = b ↔ a.x = b.x ∧ a.y = b.y) ∧ (a = b → Vec2.hash a = Vec2.hash b) := by
  constructor
  · cases a
    cases b
    simp
  · intro h
    rw [h]

/-- Witness for C6 at a concrete pair of equal coordinates. -/
theorem vec2_eq_iff_and_hash_witness :
    (Vec2.mk (3 : Int) (-4) = Vec2.mk 3 (-4) ↔ (3 : Int) = 3 ∧ (-4 : Int) = -4)
    ∧ Vec2.hash (Vec2.mk 3 (-4)) = Vec2.hash (Vec2.mk 3 (-4)) :=
  ⟨(vec2_eq_iff_and_hash (Vec2.mk 3 (-4)) (Vec2.mk 3 (-4))).1,
   (vec2_eq_iff_and_hash (Vec2.mk 3 (-4)) (Vec2.mk 3 (-4))).2 rfl⟩

/-- C8: the fused `scale_and_add` is exactly `add` after `scale`,
componentwise, for any component type with the two operations. -/
theorem vec3_scale_and_add_eq {α : Type} [Add α] [Mul α]
    (a b : Vec3 α) (s : α) :
    a.scale_and_add b s = a.add (b.scale s) := rfl

/-- C9: `normalize` divides only under the guard `len > 0.0`: when the
squared length is not positive the vector is returned unchanged, and when
it is positive the result is exactly the input scaled by the reciprocal
square-root length. -/
theorem vec3_normalize_guard {α : Type} [Zero α] [One α] [Add α] [Mul α]
    [Div α] [LT α] [instDec : ∀ a b : α, Decidable (a < b)] (sqrt : α → α) (v : Vec3 α) :
    (¬ (v.x * v.x + v.y * v.y + v.z * v.z > 0) → Vec3.normalize sqrt v = v)
    ∧ ((v.x * v.x + v.y * v.y + v.z * v.z > 0) →
        Vec3.normalize sqrt v
          = v.scale (1 / sqrt (v.x * v.x + v.y * v.y + v.z * v.z))) := by
  constructor
  · intro h
    simp [Vec3.normalize, h]
  · intro h
    simp [Vec3.normalize, h, Vec3.scale]

/-- Witness for C9 at the rational zero vector (so the guard is false). -/
theorem vec3_normalize_guard_witness :
    Vec3.normalize (fun q : ℚ => q) (Vec3.mk 0 0 0) = Vec3.mk 0 0 0 :=
  (vec3_normalize_guard (fun q : ℚ => q) (Vec3.mk 0 0 0)).1 (by norm_num)

/-- C10: converting a primitive vector to a `Vec3` keeps exactly the first
three elements, ignoring the rest, and panics when fewer than three are
present. -/
theorem vec3_from_vec_spec {α : Type} (x y z : α) (rest : List α)
    (l : List α) (h : l.length < 3) :
    Vec3.from_vec (x :: y :: z :: rest) = some (Vec3.mk x y z)
    ∧ Vec3.from_vec l = none := by
  refine ⟨rfl, ?_⟩
  match l, h with
  | [], _ => rfl
  | [a], _ => rfl
  | [a, b], _ => rfl

/-- Witness for C10 at a concrete long list and a concrete short list. -/
theorem vec3_from_vec_spec_witness :
    Vec3.from_vec [1, 2, 3, 4, 5] = some (Vec3.mk 1 2 3)
    ∧ Vec3.from_vec [9, 9] = none :=
  vec3_from_vec_spec 1 2 3 [4, 5] [9, 9] (by decide)

/-- C1: after `TestStage::process` completes on a chunk (any chunk with a
positive world height, as all real chunks have), every voxel at world
`y = 0` within the chunk's horizontal extent reads back block id `1`. -/
theorem testStage_sets_y_zero (c : Chunk) (vx vz : Int)
    (hh : 0 < c.options.max_height)
    (hx1 : c.min.x ≤ vx) (hx2 : vx < c.min.x + (c.options.chunk_size : Int))
    (hz1 : c.min.z ≤ vz) (hz2 : vz < c.min.z + (c.options.chunk_size : Int)) :
    ((TestStage.process c).bind fun c2 => c2.get_block_id vx 0 vz) = some 1 := by
  rw [process_spec c hh, Option.some_bind]
  simp only [Chunk.get_block_id, Chunk.min] at *
  rw [if_pos (by omega)]
  rw [if_pos (by omega)]

/-- Witness for C1 at a concrete chunk and in-range coordinates. -/
theorem testStage_sets_y_zero_witness :
    ((TestStage.process sampleChunk).bind fun c2 => c2.get_block_id 1 0 0)
      = some 1 :=
  testStage_sets_y_zero sampleChunk 1 0 (by decide) (by decide) (by decide)
    (by decide) (by decide)

/-- C5: `TestStage::process` is deterministic in the chunk's block content:
two chunks with identical grids and identical options (their coordinates
may differ) produce identical grids. -/
theorem process_deterministic (c1 c2 : Chunk) (hv : c1.voxels = c2.voxels)
    (ho : c1.options = c2.options) :
    (TestStage.process c1).map Chunk.voxels
      = (TestStage.process c2).map Chunk.voxels := by
  by_cases hh : 0 < c1.options.max_height
  · rw [process_spec c1 hh, process_spec c2 (by rw [← ho]; exact hh)]
    simp only [Option.map_some', ho, hv]
  · have hh1 : c1.options.max_height = 0 := by omega
    have hh2 : c2.options.max_height = 0 := by rw [← ho]; exact hh1
    by_cases hs : 0 < c1.options.chunk_size
    · rw [process_height_zero c1 hh1 hs,
        process_height_zero c2 hh2 (by rw [← ho]; exact hs)]
    · have hs1 : c1.options.chunk_size = 0 := by omega
      have hs2 : c2.options.chunk_size = 0 := by rw [← ho]; exact hs1
      have p1 : TestStage.process c1 = some c1 := by
        rw [TestStage.process, hs1]
        rfl
      have p2 : TestStage.process c2 = some c2 := by
        rw [TestStage.process, hs2]
        rfl
      rw [p1, p2]
      simp [hv]

/-- Witness for C5 at two concrete chunks with equal grids and options but
different coordinates. -/
theorem process_deterministic_witness :
    (TestStage.process sampleChunk).map Chunk.voxels
      = (TestStage.process sampleChunkShifted).map Chunk.voxels :=
  process_deterministic sampleChunk sampleChunkShifted rfl rfl

/-- C7: `TestStage::process` is frame-bounded to the world plane `y = 0`:
every voxel with `vy ≠ 0` reads back unchanged, and the chunk's `min`,
`coords` and `options` are unchanged. -/
theorem testStage_frame (c : Chunk) (vx vy vz : Int)
    (hh : 0 < c.options.max_height) (hy : vy ≠ 0) :
    ((TestStage.process c).bind fun c2 => c2.get_block_id vx vy vz)
        = c.get_block_id vx vy vz
    ∧ (TestStage.process c).map Chunk.min = some c.min
    ∧ (TestStage.process c).map Chunk.coords = some c.coords
    ∧ (TestStage.process c).map Chunk.options = some c.options := by
  rw [process_spec c hh]
  refine ⟨?_, rfl, rfl, rfl⟩
  rw [Option.some_bind]
  simp only [Chunk.get_block_id, Chunk.min]
  split_ifs with hcond hvoxel
  · exact absurd hvoxel.2.1 (by omega)
  · rfl
  · rfl

/-- Witness for C7 at a concrete chunk and a voxel with `vy = 1`. -/
theorem testStage_frame_witness :
    ((TestStage.process sampleChunk).bind fun c2 => c2.get_block_id 1 1 0)
        = sampleChunk.get_block_id 1 1 0
    ∧ (TestStage.process sampleChunk).map Chunk.min = some sampleChunk.min
    ∧ (TestStage.process sampleChunk).map Chunk.coords = some sampleChunk.coords
    ∧ (TestStage.process sampleChunk).map Chunk.options
        = some sampleChunk.options :=
  testStage_frame sampleChunk 1 1 0 (by decide) (by decide)

/-- C2: duplicate requests are coalesced: starting from a state with no
table entry and no queued job for `c`, requesting `c` twice submits exactly
one job, and the second request is a no-op. -/
theorem request_coalesces (m : ChunkManager) (c : Vec2 Int)
    (habsent : lookupStatus m.chunks c = none) (hq : m.queue.count c = 0) :
    ((m.request c).request c).queue.count c = 1
    ∧ (m.request c).request c = m.request c := by
  have h1 : m.request c
      = { chunks := (c, ChunkStatus.Requested) :: m.chunks
          queue := m.queue ++ [c] } := by
    rw [ChunkManager.request, habsent]
  have h2 : lookupStatus ((c, ChunkStatus.Requested) :: m.chunks) c
      = some ChunkStatus.Requested := by
    simp [lookupStatus, List.find?]
  constructor
  · rw [h1]
    rw [ChunkManager.request]
    rw [h2]
    simp [List.count_append, hq]
  · rw [h1, ChunkManager.request, h2]

/-- Witness for C2 from the empty manager at coordinate `(0,0)`. -/
theorem request_coalesces_witness :
    ((emptyManager.request (Vec2.mk 0 0)).request (Vec2.mk 0 0)).queue.count
        (Vec2.mk 0 0) = 1
    ∧ (emptyManager.request (Vec2.mk 0 0)).request (Vec2.mk 0 0)
        = emptyManager.request (Vec2.mk 0 0) :=
  request_coalesces emptyManager (Vec2.mk 0 0) (by decide) (by decide)

/-- C3: `BlockMesher::is_applicable` holds exactly for non-zero block ids,
so an air voxel (block id `0`) is never dispatched and contributes zero
geometry fragments. -/
theorem blockMesher_air (b : Nat) (c : Chunk) (vx vy vz : Int)
    (hair : c.get_block_id vx vy vz = some 0) :
    (BlockMesher.is_applicable b = true ↔ b ≠ 0)
    ∧ mesher_dispatch c vx vy vz = some [] := by
  constructor
  · simp [BlockMesher.is_applicable]
  · simp [mesher_dispatch, hair, BlockMesher.is_applicable]

/-- Witness for C3 at a concrete non-zero id and a concrete air voxel. -/
theorem blockMesher_air_witness :
    (BlockMesher.is_applicable 5 = true ↔ (5 : Nat) ≠ 0)
    ∧ mesher_dispatch sampleChunk 0 0 0 = some [] :=
  blockMesher_air 5 sampleChunk 0 0 0 (by decide)

end Voxelize
